import Mathlib

/-!
# Verification of the ez-env envelope-encryption keyring

A shallow embedding of the core of the `ez-env` repository: the versioned
symmetric file framing (`crypto.EncryptFile` / `crypto.DecryptFile` /
`crypto.IsEncryptedFile`), the DEK manager and keyring orchestration
(`crypto/keyring.go`), the keyring serialization (`Keyring.Save`), and the
clean filter entry point (`cmd.Clean`).

Bytes are modelled as `List Nat` (each element a byte value).  Randomness
(nonces, OAEP randomization) is passed in explicitly as parameters.
External library primitives (Go's `crypto/cipher` GCM, `crypto/rsa` OAEP,
`golang.org/x/crypto/ssh` parsing, `encoding/json`) are modelled by concrete
executable functions faithful to their documented contracts; everything else
is translated directly from the repository's Go source.
-/

namespace EzEnv

/-- The error values surfaced by the embedded operations, one constructor per
distinct Go error message / wrap site in the source. -/
inductive Err where
  /-- `"invalid key size: expected 32, got %d"` (crypto.go EncryptFile/DecryptFile) -/
  | invalidKeySize (got : Nat)
  /-- `"encrypted data too short"` (DecryptFile) -/
  | tooShort
  /-- `"unsupported version: %d"` (DecryptFile) -/
  | unsupportedVersion (v : Nat)
  /-- `"failed to decrypt"` — GCM authentication/open failure (DecryptFile) -/
  | decryptFailed
  /-- `"failed to create cipher"` — aes.NewCipher rejected the key length -/
  | cipherCreateFailed
  /-- `"no DEK found. Must be generated first with GenerateRawKey()"` (keyring.go) -/
  | noDEK
  /-- `"failed to encrypt DEK"` — rsa.EncryptOAEP failure (keyring.go EncryptDEK) -/
  | encryptDEKFailed
  /-- `"failed to decrypt DEK"` — rsa.DecryptOAEP failure (keyring.go DecryptDEK) -/
  | decryptDEKFailed
  /-- `"failed to parse SSH public key"` / non-RSA key (ssh.ParseSSHPublicKey) -/
  | sshParseFailed
  /-- `"no valid SSH keys found for collaborator %s"` (GenerateEncryptedDEKs) -/
  | noValidKeys (login : String)
  /-- `"no collaborator found for login %s"` (GetDecryptedDEK) -/
  | unknownCollaborator (login : String)
  /-- `"failed to decrypt DEK with provided private key"` (GetDecryptedDEK) -/
  | getDecryptedDEKFailed
  deriving DecidableEq

/-- `keySize = 32` (crypto.go): AES-256 key size in bytes. -/
def keySize : Nat := 32

/-- `nonceSize = 12` (crypto.go): GCM nonce size in bytes. -/
def nonceSize : Nat := 12

/-- `tagSize = 16` (crypto.go): GCM authentication tag size in bytes. -/
def tagSize : Nat := 16

/-- `binary.BigEndian.Uint32` on the first four bytes of a buffer. -/
def beUint32 (bs : List Nat) : Nat :=
  match bs with
  | b0 :: b1 :: b2 :: b3 :: _ => ((b0 * 256 + b1) * 256 + b2) * 256 + b3
  | _ => 0

/-- `binary.BigEndian.PutUint32(out[0:4], 1)`: the four version bytes written
by `EncryptFile` for version 1. -/
def versionBytes : List Nat := [0, 0, 0, 1]

/-- Models the AES-CTR keystream byte at position `i` inside Go's GCM
(`crypto/cipher`, external library).  The mixing function is a concrete
stand-in for the AES-256 block cipher: a keyed pseudorandom byte derived from
the key, the nonce and the position.  Only its determinism matters for the
properties proved here. -/
def mixByte (key nonce : List Nat) (i : Nat) : Nat :=
  (List.foldl (fun a b => (a * 257 + b + 1) % 65521) (i + 1) (key ++ nonce)) % 256

/-- XOR a byte list against the keystream starting at position `i`:
the CTR-mode encryption/decryption step inside GCM (external library,
modelled by contract: the same operation inverts itself). -/
def xorStream (key nonce : List Nat) : Nat → List Nat → List Nat
  | _, [] => []
  | i, b :: rest => (b ^^^ mixByte key nonce i) :: xorStream key nonce (i + 1) rest

/-- Models the GHASH-derived 16-byte authentication tag of Go's GCM
(external library): a concrete keyed function of key, nonce and ciphertext
producing exactly `tagSize` bytes. -/
def gcmTag (key nonce ct : List Nat) : List Nat :=
  (List.range tagSize).map
    (fun i => (List.foldl (fun a b => (a * 263 + b + 1) % 65519) (i + 7) (key ++ nonce ++ ct)) % 256)

/-- Models `gcm.Seal(nil, nonce, plaintext, nil)` of Go's `crypto/cipher`
(external library contract): ciphertext of the same length as the plaintext
followed by the 16-byte tag. -/
def gcmSeal (key nonce pt : List Nat) : List Nat :=
  xorStream key nonce 0 pt ++ gcmTag key nonce (xorStream key nonce 0 pt)

/-- Models `gcm.Open(nil, nonce, ciphertext, nil)` of Go's `crypto/cipher`
(external library contract): fails when the input is shorter than the tag,
otherwise splits off the trailing 16-byte tag, recomputes it over the
ciphertext and fails on mismatch; on success decrypts the ciphertext. -/
def gcmOpen (key nonce data : List Nat) : Option (List Nat) :=
  if data.length < tagSize then none
  else
    let ct := data.take (data.length - tagSize)
    let tag := data.drop (data.length - tagSize)
    if tag = gcmTag key nonce ct then some (xorStream key nonce 0 ct) else none

/-- `crypto.EncryptFile(plaintext, key)` (crypto.go): rejects keys that are
not exactly 32 bytes, then emits `[version(4)][nonce(12)][ciphertext‖tag]`.
The 12 random nonce bytes drawn from `rand.Reader` are passed in as the
`nonce` parameter.  (`aes.NewCipher` and `cipher.NewGCM` cannot fail after
the 32-byte key check, so those branches are unreachable and elided.) -/
def EncryptFile (plaintext key nonce : List Nat) : Except Err (List Nat) :=
  if key.length ≠ keySize then .error (.invalidKeySize key.length)
  else .ok (versionBytes ++ nonce ++ gcmSeal key nonce plaintext)

/-- `crypto.DecryptFile(encrypted, key)` (crypto.go): key-size check, then
truncation check (`len < 4 + nonceSize`), then version check, then GCM open
on the nonce slice `encrypted[4:16]` and ciphertext slice `encrypted[16:]`
(Go's local variables `version`, `nonce`, `ciphertext` inlined). -/
def DecryptFile (encrypted key : List Nat) : Except Err (List Nat) :=
  if key.length ≠ keySize then .error (.invalidKeySize key.length)
  else if encrypted.length < 4 + nonceSize then .error .tooShort
  else if beUint32 (encrypted.take 4) ≠ 1 then
    .error (.unsupportedVersion (beUint32 (encrypted.take 4)))
  else
    match gcmOpen key ((encrypted.drop 4).take nonceSize) (encrypted.drop (4 + nonceSize)) with
    | none => .error .decryptFailed
    | some pt => .ok pt

/-- `crypto.IsEncryptedFile(data)` (crypto.go): at least 4 bytes and the
first four bytes read big-endian equal 1. -/
def IsEncryptedFile (data : List Nat) : Bool :=
  if data.length < 4 then false
  else beUint32 (data.take 4) == 1

/-- `cmd.Clean()` (clean.go), determinized: stdin content is the `input`
parameter, the key obtained from `KeyManager.GetOrCreateEncryptionKey`
(external GitHub workflow I/O) is the `key` parameter, and the nonce drawn
inside `EncryptFile` is the `nonce` parameter.  Already-encrypted-looking
input is passed through unchanged; otherwise it is encrypted. -/
def Clean (input key nonce : List Nat) : Except Err (List Nat) :=
  if IsEncryptedFile input then .ok input
  else EncryptFile input key nonce

/-! ## Basic lemmas about the GCM model -/

theorem xorStream_length (key nonce : List Nat) :
    ∀ (i : Nat) (bs : List Nat), (xorStream key nonce i bs).length = bs.length := by
  intro i bs
  induction bs generalizing i with
  | nil => rfl
  | cons b rest ih => simp [xorStream, ih]

theorem xorStream_xorStream (key nonce : List Nat) :
    ∀ (i : Nat) (bs : List Nat), xorStream key nonce i (xorStream key nonce i bs) = bs := by
  intro i bs
  induction bs generalizing i with
  | nil => rfl
  | cons b rest ih =>
    simp only [xorStream, Nat.xor_cancel_right, List.cons.injEq]
    exact ⟨trivial, ih (i + 1)⟩

theorem gcmTag_length (key nonce ct : List Nat) : (gcmTag key nonce ct).length = tagSize := by
  simp [gcmTag]

theorem gcmSeal_length (key nonce pt : List Nat) :
    (gcmSeal key nonce pt).length = pt.length + tagSize := by
  simp [gcmSeal, xorStream_length, gcmTag_length]

theorem gcmOpen_gcmSeal (key nonce pt : List Nat) :
    gcmOpen key nonce (gcmSeal key nonce pt) = some pt := by
  have hct := xorStream_length key nonce 0 pt
  have htag := gcmTag_length key nonce (xorStream key nonce 0 pt)
  unfold gcmOpen gcmSeal
  have hlen : (xorStream key nonce 0 pt ++ gcmTag key nonce (xorStream key nonce 0 pt)).length
      = pt.length + tagSize := by simp [hct, htag]
  rw [hlen]
  have hnot : ¬ (pt.length + tagSize < tagSize) := by omega
  rw [if_neg hnot]
  have hsub : pt.length + tagSize - tagSize = (xorStream key nonce 0 pt).length := by omega
  rw [hsub, List.take_left, List.drop_left]
  rw [if_pos rfl, xorStream_xorStream]

/-! ## Asymmetric wrapper and keyring (crypto/keyring.go, ssh/parse.go) -/

/-- An RSA public key (`*rsa.PublicKey`), abstracted: `keyId` identifies the
key pair and `capacity` is the maximum OAEP payload the modulus can hold
(`k - 2*hLen - 2` bytes for a `k`-byte modulus with SHA-256). -/
structure RSAPublicKey where
  keyId : Nat
  capacity : Nat
  deriving DecidableEq

/-- An RSA private key (`*rsa.PrivateKey`), abstracted to the id of its pair. -/
structure RSAPrivateKey where
  keyId : Nat
  deriving DecidableEq

/-- Models `rsa.EncryptOAEP(sha256.New(), rand.Reader, pub, payload, nil)` of
Go's `crypto/rsa` (external library contract): fails when the payload exceeds
the modulus capacity, otherwise produces a randomized ciphertext that
`rsaDecryptOAEP` inverts under the matching private key.  `r` is the drawn
OAEP randomness. -/
def rsaEncryptOAEP (pub : RSAPublicKey) (r : Nat) (payload : List Nat) : Except Err (List Nat) :=
  if payload.length > pub.capacity then .error .encryptDEKFailed
  else .ok (pub.keyId :: r :: payload.length :: payload)

/-- Models `rsa.DecryptOAEP(sha256.New(), rand.Reader, priv, ct, nil)`
(external library contract): succeeds exactly on well-formed ciphertexts
produced under the matching public key; every other input — a wrong key,
corrupted bytes, or an empty ciphertext — fails with one undifferentiated
decryption error. -/
def rsaDecryptOAEP (priv : RSAPrivateKey) (ct : List Nat) : Except Err (List Nat) :=
  match ct with
  | kid :: _ :: len :: payload =>
    if kid = priv.keyId ∧ payload.length = len then .ok payload
    else .error .decryptDEKFailed
  | _ => .error .decryptDEKFailed

/-- The text of one SSH public key as stored in `Collaborator.SSHKeys`,
abstracted to its parse outcome: `valid pub` is a well-formed OpenSSH RSA key
text, `malformed s` is any text the external parser rejects (or a non-RSA
key). -/
inductive SSHKeyText where
  | valid (pub : RSAPublicKey)
  | malformed (s : String)
  deriving DecidableEq

/-- `ssh.ParseSSHPublicKey(keyBytes)` (ssh/parse.go): delegates to the
external `golang.org/x/crypto/ssh` parser and the RSA downcast; a text either
yields an RSA public key or an error. -/
def ParseSSHPublicKey : SSHKeyText → Except Err RSAPublicKey
  | .valid pub => .ok pub
  | .malformed _ => .error .sshParseFailed

/-- `Collaborator` (keyring.go): SSH key texts plus the single encrypted DEK
(`EncryptedDEK []byte`; the zero value is the empty slice). -/
structure Collaborator where
  sshKeys : List SSHKeyText
  encryptedDEK : List Nat
  deriving DecidableEq

/-- `Collaborators` (keyring.go): the map from login to collaborator, modelled
as an association list in one fixed iteration order. -/
abbrev Collaborators := List (String × Collaborator)

/-- `DEKManager` (keyring.go): holds the raw DEK; `rawKey` is `nil` (`none`)
until `GenerateRawKey` has run. -/
structure DEKManager where
  rawKey : Option (List Nat)
  deriving DecidableEq

/-- `Keyring` (keyring.go): the collaborator table plus the DEK manager. -/
structure Keyring where
  collaborators : Collaborators
  dek : DEKManager
  deriving DecidableEq

/-- Go map lookup `k.Collaborators[login]` on the association-list model. -/
def lookupCollab : Collaborators → String → Option Collaborator
  | [], _ => none
  | (l, c) :: rest, login => if l = login then some c else lookupCollab rest login

/-- Go map assignment `k.Collaborators[login] = c` on the association-list
model: replace the entry if present, otherwise append. -/
def setCollab : Collaborators → String → Collaborator → Collaborators
  | [], login, c => [(login, c)]
  | (l, c0) :: rest, login, c =>
    if l = login then (login, c) :: rest else (l, c0) :: setCollab rest login c

/-- `(*DEKManager).EncryptFile(plaintext)` (keyring.go): errors when no DEK
has been generated; otherwise AES-GCM framing exactly as the package-level
`EncryptFile`, keyed by the stored raw key (no explicit key-length check here:
`aes.NewCipher` itself rejects lengths other than 16/24/32).  The pointer
receiver is threaded explicitly: the second component is the manager state
after the call. -/
def DEKManager.EncryptFile (d : DEKManager) (plaintext nonce : List Nat) :
    Except Err (List Nat) × DEKManager :=
  match d.rawKey with
  | none => (.error .noDEK, d)
  | some key =>
    if key.length = 16 ∨ key.length = 24 ∨ key.length = 32 then
      (.ok (versionBytes ++ nonce ++ gcmSeal key nonce plaintext), d)
    else (.error .cipherCreateFailed, d)

/-- `(*DEKManager).EncryptDEK(publicKey)` (keyring.go): errors when no DEK has
been generated; otherwise OAEP-wraps the raw key under the public key.  `r` is
the OAEP randomness; the pointer receiver is threaded explicitly. -/
def DEKManager.EncryptDEK (d : DEKManager) (pub : RSAPublicKey) (r : Nat) :
    Except Err (List Nat) × DEKManager :=
  match d.rawKey with
  | none => (.error .noDEK, d)
  | some key =>
    match rsaEncryptOAEP pub r key with
    | .error e => (.error e, d)
    | .ok enc => (.ok enc, d)

/-- `crypto.DecryptDEK(encryptedDEK, privateKey)` (keyring.go): OAEP-unwraps;
any failure surfaces as the single `"failed to decrypt DEK"` error. -/
def DecryptDEK (encryptedDEK : List Nat) (priv : RSAPrivateKey) : Except Err (List Nat) :=
  match rsaDecryptOAEP priv encryptedDEK with
  | .error _ => .error .decryptDEKFailed
  | .ok dek => .ok dek

/-- The per-collaborator inner loop of `GenerateEncryptedDEKs` (keyring.go):
try each SSH key in order; skip keys that fail to parse and keys that fail to
wrap; return the first successful wrap, or `none` when every key failed. -/
def tryWrapKeys (d : DEKManager) (r : Nat) : List SSHKeyText → Option (List Nat)
  | [] => none
  | k :: rest =>
    match ParseSSHPublicKey k with
    | .error _ => tryWrapKeys d r rest
    | .ok pub =>
      match (d.EncryptDEK pub r).1 with
      | .error _ => tryWrapKeys d r rest
      | .ok enc => some enc

/-- The collaborator loop of `GenerateEncryptedDEKs` (keyring.go): for each
record, store the first successful wrap (leaving the old `EncryptedDEK` in
place when every key failed), then fail with the per-collaborator error
exactly when the resulting `EncryptedDEK` has length 0. -/
def rewrapCollabs (d : DEKManager) (r : Nat) : Collaborators → Except Err Collaborators
  | [] => .ok []
  | (login, c) :: rest =>
    let c' : Collaborator :=
      match tryWrapKeys d r c.sshKeys with
      | some enc => { c with encryptedDEK := enc }
      | none => c
    if c'.encryptedDEK.length = 0 then .error (.noValidKeys login)
    else
      match rewrapCollabs d r rest with
      | .error e => .error e
      | .ok rest' => .ok ((login, c') :: rest')

/-- `(*Keyring).GenerateEncryptedDEKs()` (keyring.go), with the OAEP
randomness `r` explicit: rewraps the DEK for every collaborator in the table. -/
def Keyring.GenerateEncryptedDEKs (k : Keyring) (r : Nat) : Except Err Keyring :=
  match rewrapCollabs k.dek r k.collaborators with
  | .error e => .error e
  | .ok cs => .ok { k with collaborators := cs }

/-- `(*Keyring).GetDecryptedDEK(privateKey, login)` (keyring.go): map lookup,
then `DecryptDEK` on whatever `EncryptedDEK` the record holds (there is no
separate emptiness check); its failure is wrapped as the
`"failed to decrypt DEK with provided private key"` error. -/
def Keyring.GetDecryptedDEK (k : Keyring) (priv : RSAPrivateKey) (login : String) :
    Except Err (List Nat) :=
  match lookupCollab k.collaborators login with
  | none => .error (.unknownCollaborator login)
  | some c =>
    match DecryptDEK c.encryptedDEK priv with
    | .error _ => .error .getDecryptedDEKFailed
    | .ok dek => .ok dek

/-- `(*Keyring).AddCollaborator(login, sshKeys)` (keyring.go): assigns a
freshly constructed record `Collaborator{SSHKeys: sshKeys}` whose
`EncryptedDEK` is the zero value (empty), then saves. -/
def Keyring.AddCollaborator (k : Keyring) (login : String) (sshKeys : List SSHKeyText) : Keyring :=
  { k with collaborators := setCollab k.collaborators login ⟨sshKeys, []⟩ }

/-- `(*Keyring).RemoveCollaborator(login)` (keyring.go): deletes the record. -/
def Keyring.RemoveCollaborator (k : Keyring) (login : String) : Keyring :=
  { k with collaborators := k.collaborators.filter (fun p => p.1 ≠ login) }

/-- `(*Keyring).UpdateCollaborators(collaborators)` (keyring.go): assigns each
supplied record into the map wholesale, then saves. -/
def Keyring.UpdateCollaborators (k : Keyring) (new : Collaborators) : Keyring :=
  { k with collaborators := new.foldl (fun cs p => setCollab cs p.1 p.2) k.collaborators }

/-! ## Keyring persistence (`(*Keyring).Save`, keyring.go)

`Save` marshals the `Keyring` struct with `encoding/json` and writes the
resulting bytes to disk.  The external `encoding/json` library is modelled by
its contract: only exported fields are serialized — the tagged
`Collaborators` map (each record's `ssh_keys` strings and `encrypted_dek`
bytes, the latter base64-encoded as Go does for `[]byte`) and the exported
`DEK` field, which renders as the empty object `\x7b\x7d` because
`DEKManager`'s only field `rawKey` is unexported and therefore never read.
The output is produced as a byte list (ASCII codes); indentation/whitespace
details of `MarshalIndent` are not reproduced byte-exactly, the content is. -/

/-- ASCII codes of the standard base64 alphabet. -/
def base64Table : List Nat :=
  (List.range 26).map (· + 65) ++ (List.range 26).map (· + 97) ++
    (List.range 10).map (· + 48) ++ [43, 47]

/-- The base64 digit for a 6-bit value. -/
def b64char (n : Nat) : Nat := base64Table.getD n 65

/-- RFC 4648 base64 encoding of a byte list, as ASCII codes (Go's
`encoding/json` renders `[]byte` this way). -/
def base64Encode : List Nat → List Nat
  | [] => []
  | [a] => [b64char (a / 4), b64char (a % 4 * 16), 61, 61]
  | [a, b] => [b64char (a / 4), b64char (a % 4 * 16 + b / 16), b64char (b % 16 * 4), 61]
  | a :: b :: c :: rest =>
    [b64char (a / 4), b64char (a % 4 * 16 + b / 16),
     b64char (b % 16 * 4 + c / 64), b64char (c % 64)] ++ base64Encode rest

/-- The bytes of a Lean string (character codes). -/
def strBytes (s : String) : List Nat := s.toList.map Char.toNat

/-- A JSON string literal around the given content bytes. -/
def jsonQuote (bs : List Nat) : List Nat := 34 :: bs ++ [34]

/-- The stored text of one SSH key, re-rendered from the parse-outcome
abstraction for serialization. -/
def SSHKeyText.text : SSHKeyText → String
  | .valid pub => "ssh-rsa " ++ toString pub.keyId
  | .malformed s => s

/-- A JSON array node from already-rendered element byte lists. -/
def jsonArray (elems : List (List Nat)) : List Nat :=
  91 :: (List.intercalate [44] elems) ++ [93]

/-- The JSON rendering of one `Collaborator` value: its `ssh_keys` and its
base64-encoded `encrypted_dek`, exactly the exported, tagged fields. -/
def marshalCollaborator (c : Collaborator) : List Nat :=
  123 :: jsonQuote (strBytes "ssh_keys") ++ [58] ++
    jsonArray (c.sshKeys.map (fun k => jsonQuote (strBytes k.text))) ++ [44] ++
    jsonQuote (strBytes "encrypted_dek") ++ [58] ++
    jsonQuote (base64Encode c.encryptedDEK) ++ [125]

/-- The JSON rendering of the collaborator table. -/
def marshalCollaborators (cs : Collaborators) : List Nat :=
  123 :: (List.intercalate [44]
    (cs.map (fun p => jsonQuote (strBytes p.1) ++ [58] ++ marshalCollaborator p.2))) ++ [125]

/-- The bytes `(*Keyring).Save` (keyring.go) writes to `.gitenv_keyring`:
`json.Marshal` of the `Keyring` struct — the `collaborators` field followed by
the exported `DEK` field, which serializes as the empty object since
`DEKManager.rawKey` is unexported. -/
def marshalKeyring (k : Keyring) : List Nat :=
  123 :: jsonQuote (strBytes "collaborators") ++ [58] ++
    marshalCollaborators k.collaborators ++ [44] ++
    jsonQuote (strBytes "DEK") ++ [58] ++ [123, 125] ++ [125]

/-! ## Helper lemmas for the framed payload -/

theorem encrypted_take4 (nonce tail : List Nat) :
    (versionBytes ++ nonce ++ tail).take 4 = versionBytes := rfl

theorem encrypted_nonce (nonce tail : List Nat) (hn : nonce.length = nonceSize) :
    ((versionBytes ++ nonce ++ tail).drop 4).take nonceSize = nonce :=
  List.take_left' hn

theorem encrypted_tail (nonce tail : List Nat) (hn : nonce.length = nonceSize) :
    (versionBytes ++ nonce ++ tail).drop (4 + nonceSize) = tail := by
  refine List.drop_left' ?_
  simp [versionBytes, hn, nonceSize]

theorem encrypted_length (nonce tail : List Nat) (hn : nonce.length = nonceSize) :
    (versionBytes ++ nonce ++ tail).length = 16 + tail.length := by
  simp [versionBytes, hn, nonceSize]
  omega

theorem decryptFile_of_framed (P key nonce : List Nat) (hk : key.length = keySize)
    (hn : nonce.length = nonceSize) :
    DecryptFile (versionBytes ++ nonce ++ gcmSeal key nonce P) key = .ok P := by
  have hlen : ¬ ((versionBytes ++ nonce ++ gcmSeal key nonce P).length < 4 + nonceSize) := by
    rw [encrypted_length _ _ hn]
    simp [nonceSize]
  unfold DecryptFile
  rw [if_neg (by simp [hk]), if_neg hlen]
  simp only [encrypted_take4, encrypted_nonce _ _ hn, encrypted_tail _ _ hn]
  rw [if_neg (by norm_num [beUint32, versionBytes])]
  rw [gcmOpen_gcmSeal]

/-- C1: for every plaintext byte sequence P (including the empty sequence and
arbitrary binary bytes) and every 32-byte key K, decrypting the result of
`EncryptFile(P, K)` with `DecryptFile` under the same key returns P.
(The fresh 12-byte nonce drawn inside `EncryptFile` is the explicit `nonce`
parameter.) -/
theorem encryptFile_decryptFile_roundtrip (P key nonce : List Nat)
    (hk : key.length = keySize) (hn : nonce.length = nonceSize) :
    (EncryptFile P key nonce).bind (fun out => DecryptFile out key) = .ok P := by
  unfold EncryptFile
  rw [if_neg (by simp [hk])]
  exact decryptFile_of_framed P key nonce hk hn

/-- Witness for C1 at a concrete plaintext, key and nonce. -/
theorem encryptFile_decryptFile_roundtrip_witness :
    (EncryptFile [104, 105, 0, 255] (List.range 32) (List.replicate 12 7)).bind
      (fun out => DecryptFile out (List.range 32)) = .ok [104, 105, 0, 255] :=
  encryptFile_decryptFile_roundtrip [104, 105, 0, 255] (List.range 32)
    (List.replicate 12 7) (by decide) (by decide)

/-- C7: for every plaintext P, 32-byte key and 12-byte nonce, the output of
`EncryptFile` is exactly the 4 version bytes (big-endian 1), then the 12-byte
nonce, then the sealed ciphertext carrying a 16-byte tag; its total length is
4 + 12 + len(P) + 16. -/
theorem encryptFile_length_layout (P key nonce : List Nat)
    (hk : key.length = keySize) (hn : nonce.length = nonceSize) :
    EncryptFile P key nonce = .ok (versionBytes ++ nonce ++ gcmSeal key nonce P) ∧
    (versionBytes ++ nonce ++ gcmSeal key nonce P).length = 4 + 12 + P.length + 16 ∧
    (versionBytes ++ nonce ++ gcmSeal key nonce P).take 4 = versionBytes ∧
    beUint32 versionBytes = 1 ∧
    ((versionBytes ++ nonce ++ gcmSeal key nonce P).drop 4).take 12 = nonce ∧
    (versionBytes ++ nonce ++ gcmSeal key nonce P).drop 16 = gcmSeal key nonce P ∧
    (gcmSeal key nonce P).length = P.length + 16 := by
  refine ⟨by simp [EncryptFile, hk], ?_, encrypted_take4 _ _, by norm_num [beUint32, versionBytes],
    encrypted_nonce _ _ hn, encrypted_tail _ _ hn, gcmSeal_length key nonce P⟩
  rw [encrypted_length _ _ hn, gcmSeal_length]
  simp [tagSize]
  omega

/-- Witness for C7 at a concrete plaintext, key and nonce. -/
theorem encryptFile_length_layout_witness :
    EncryptFile [9] (List.replicate 32 1) (List.replicate 12 2)
        = .ok (versionBytes ++ List.replicate 12 2 ++
            gcmSeal (List.replicate 32 1) (List.replicate 12 2) [9]) ∧
    (versionBytes ++ List.replicate 12 2 ++
        gcmSeal (List.replicate 32 1) (List.replicate 12 2) [9]).length = 4 + 12 + 1 + 16 ∧
    (versionBytes ++ List.replicate 12 2 ++
        gcmSeal (List.replicate 32 1) (List.replicate 12 2) [9]).take 4 = versionBytes ∧
    beUint32 versionBytes = 1 ∧
    ((versionBytes ++ List.replicate 12 2 ++
        gcmSeal (List.replicate 32 1) (List.replicate 12 2) [9]).drop 4).take 12
      = List.replicate 12 2 ∧
    (versionBytes ++ List.replicate 12 2 ++
        gcmSeal (List.replicate 32 1) (List.replicate 12 2) [9]).drop 16
      = gcmSeal (List.replicate 32 1) (List.replicate 12 2) [9] ∧
    (gcmSeal (List.replicate 32 1) (List.replicate 12 2) [9]).length = 1 + 16 := by
  have h := encryptFile_length_layout [9] (List.replicate 32 1) (List.replicate 12 2)
    (by decide) (by decide)
  simpa using h

/-- C4 counterexample: the claim asserts that a payload with version ≠ 1
fails with `UnsupportedVersion` for every key, valid or invalid.  But
`DecryptFile` checks the key size first: on the version-2 payload below, the
empty key yields `invalidKeySize`, not `unsupportedVersion`, while the valid
32-byte key yields `unsupportedVersion` — so the outcome does depend on key
validity. -/
theorem decryptFile_version_check_depends_on_key :
    DecryptFile ([0, 0, 0, 2] ++ List.replicate 12 0) [] = .error (.invalidKeySize 0) ∧
    DecryptFile ([0, 0, 0, 2] ++ List.replicate 12 0) (List.replicate 32 0)
      = .error (.unsupportedVersion 2) := ⟨rfl, rfl⟩

/-- C4 (amended): for every payload of length at least 16 whose first four
bytes are not big-endian 1, `DecryptFile` fails with `UnsupportedVersion`
when the key is exactly 32 bytes; with a key of any other length it fails
earlier with `InvalidKeySize`, so the surfaced error does depend on key
validity. -/
theorem decryptFile_unsupportedVersion (enc key : List Nat)
    (hlen : 16 ≤ enc.length) (hv : beUint32 (enc.take 4) ≠ 1) :
    (key.length = keySize →
        DecryptFile enc key = .error (.unsupportedVersion (beUint32 (enc.take 4)))) ∧
    (key.length ≠ keySize → DecryptFile enc key = .error (.invalidKeySize key.length)) := by
  constructor
  · intro hk
    unfold DecryptFile
    rw [if_neg (by simp [hk]), if_neg (by simp [nonceSize]; omega), if_pos hv]
  · intro hk
    unfold DecryptFile
    rw [if_pos hk]

/-- Witness for the amended C4: a version-9 payload with a valid and with an
invalid key. -/
theorem decryptFile_unsupportedVersion_witness :
    DecryptFile ([0, 0, 0, 9] ++ List.replicate 12 0) (List.replicate 32 0)
        = .error (.unsupportedVersion 9) ∧
    DecryptFile ([0, 0, 0, 9] ++ List.replicate 12 0) [] = .error (.invalidKeySize 0) :=
  ⟨(decryptFile_unsupportedVersion ([0, 0, 0, 9] ++ List.replicate 12 0)
      (List.replicate 32 0) (by decide) (by decide)).1 (by decide),
   (decryptFile_unsupportedVersion ([0, 0, 0, 9] ++ List.replicate 12 0)
      [] (by decide) (by decide)).2 (by decide)⟩

/-- C8: with a 32-byte key, an input of length at least 16 whose version is 1
but whose bytes after the nonce are fewer than the 16-byte tag passes the
truncation and version checks and fails with the authentication-failure error
`decryptFailed`; and the truncation error `tooShort` is returned exactly for
inputs shorter than 16 bytes. -/
theorem decryptFile_truncation_and_auth (enc key : List Nat) (hk : key.length = keySize) :
    (16 ≤ enc.length → beUint32 (enc.take 4) = 1 → enc.length < 32 →
      DecryptFile enc key = .error .decryptFailed) ∧
    (DecryptFile enc key = .error .tooShort ↔ enc.length < 16) := by
  constructor
  · intro h16 hv h32
    have hopen : gcmOpen key ((enc.drop 4).take nonceSize) (enc.drop (4 + nonceSize)) = none := by
      unfold gcmOpen
      rw [if_pos (by simp [List.length_drop, nonceSize, tagSize]; omega)]
    unfold DecryptFile
    rw [if_neg (by simp [hk]), if_neg (by simp [nonceSize]; omega), if_neg (by simp [hv]),
      hopen]
  · constructor
    · intro h
      by_contra hge
      unfold DecryptFile at h
      rw [if_neg (by simp [hk]), if_neg (by simp [nonceSize]; omega)] at h
      by_cases hv : beUint32 (enc.take 4) ≠ 1
      · rw [if_pos hv] at h
        simp at h
      · rw [if_neg hv] at h
        cases hopen : gcmOpen key ((enc.drop 4).take nonceSize) (enc.drop (4 + nonceSize)) <;>
          rw [hopen] at h <;> simp at h
    · intro h
      unfold DecryptFile
      rw [if_neg (by simp [hk]), if_pos (by simp [nonceSize]; omega)]

/-- Witness for C8: a 17-byte version-1 payload (only one byte after the
nonce) under a 32-byte key. -/
theorem decryptFile_truncation_and_auth_witness :
    DecryptFile ([0, 0, 0, 1] ++ List.replicate 12 0 ++ [5]) (List.replicate 32 0)
        = .error .decryptFailed ∧
    (DecryptFile ([0, 0, 0, 1] ++ List.replicate 12 0 ++ [5]) (List.replicate 32 0)
        = .error .tooShort ↔ ([0, 0, 0, 1] ++ List.replicate 12 0 ++ [5] : List Nat).length < 16) :=
  ⟨(decryptFile_truncation_and_auth ([0, 0, 0, 1] ++ List.replicate 12 0 ++ [5])
      (List.replicate 32 0) (by decide)).1 (by decide) (by decide) (by decide),
   (decryptFile_truncation_and_auth ([0, 0, 0, 1] ++ List.replicate 12 0 ++ [5])
      (List.replicate 32 0) (by decide)).2⟩

/-- C9: any stdin input of at least 4 bytes whose first four bytes read as
big-endian 1 is passed through the clean filter byte-for-byte unchanged, with
no encryption performed — for every key and nonce, including plaintext that
merely begins with those four bytes. -/
theorem clean_passthrough (input key nonce : List Nat)
    (hlen : 4 ≤ input.length) (hv : beUint32 (input.take 4) = 1) :
    Clean input key nonce = .ok input := by
  have henc : IsEncryptedFile input = true := by
    unfold IsEncryptedFile
    rw [if_neg (by omega)]
    simpa using hv
  simp [Clean, henc]

/-- Witness for C9: plaintext bytes that merely begin with `00 00 00 01` pass
through unencrypted even though the key is not even valid. -/
theorem clean_passthrough_witness :
    Clean [0, 0, 0, 1, 72, 73] [] [] = .ok [0, 0, 0, 1, 72, 73] :=
  clean_passthrough [0, 0, 0, 1, 72, 73] [] [] (by decide) (by decide)

/-- C10: on a `DEKManager` whose raw key was never generated, both
`EncryptFile` and `EncryptDEK` fail with the no-DEK error, produce no output,
and leave the manager's state unchanged. -/
theorem dekManager_nil_rawKey (d : DEKManager) (pt nonce : List Nat) (pub : RSAPublicKey)
    (r : Nat) (h : d.rawKey = none) :
    d.EncryptFile pt nonce = (.error .noDEK, d) ∧ d.EncryptDEK pub r = (.error .noDEK, d) := by
  unfold DEKManager.EncryptFile DEKManager.EncryptDEK
  rw [h]
  exact ⟨rfl, rfl⟩

/-- Witness for C10 on the freshly constructed manager (`NewDEKManager`). -/
theorem dekManager_nil_rawKey_witness :
    DEKManager.EncryptFile ⟨none⟩ [1, 2] [3] = (.error .noDEK, ⟨none⟩) ∧
    DEKManager.EncryptDEK ⟨none⟩ ⟨0, 190⟩ 0 = (.error .noDEK, ⟨none⟩) :=
  dekManager_nil_rawKey ⟨none⟩ [1, 2] [3] ⟨0, 190⟩ 0 rfl

/-- Looking up a login right after assigning it finds exactly the assigned
record (the association-list form of Go map assignment followed by lookup). -/
theorem lookup_setCollab (cs : Collaborators) (login : String) (c : Collaborator) :
    lookupCollab (setCollab cs login c) login = some c := by
  induction cs with
  | nil => simp [setCollab, lookupCollab]
  | cons p rest ih =>
    obtain ⟨l, c0⟩ := p
    by_cases h : l = login
    · simp [setCollab, h, lookupCollab]
    · simp [setCollab, h, lookupCollab, ih]

/-- C2 (code evaluation at the failing input): `GenerateEncryptedDEKs` raises
the per-collaborator error only when the record's `EncryptedDEK` ends up
empty.  A collaborator whose every SSH key fails to parse but who carries a
stale non-empty `EncryptedDEK` from an earlier wrap makes the operation
return success, keeping the stale wrapped key — it never surfaces
`NoUsableKeyForCollaborator`.  The same keyring with an empty stale
`EncryptedDEK` does fail, showing the emptiness check is what fires. -/
theorem generateEncryptedDEKs_staleDEK_success :
    Keyring.GenerateEncryptedDEKs
        ⟨[("alice", ⟨[SSHKeyText.malformed "not-a-key"], [9]⟩)], ⟨some (List.replicate 32 0)⟩⟩ 0
      = .ok ⟨[("alice", ⟨[SSHKeyText.malformed "not-a-key"], [9]⟩)],
          ⟨some (List.replicate 32 0)⟩⟩ ∧
    Keyring.GenerateEncryptedDEKs
        ⟨[("alice", ⟨[SSHKeyText.malformed "not-a-key"], []⟩)], ⟨some (List.replicate 32 0)⟩⟩ 0
      = .error (.noValidKeys "alice") := ⟨rfl, rfl⟩

/-- C3 counterexample: the claim asserts a distinct `NoWrappedKey` error for a
record that exists but was never wrapped.  The code has no such path: a
never-wrapped record (empty `EncryptedDEK`) is fed straight into the unwrap,
which fails with exactly the same generic decrypt-failure error as a record
holding corrupted wrapped-key bytes — the two cases are indistinguishable. -/
theorem getDecryptedDEK_noWrappedKey_not_distinct :
    Keyring.GetDecryptedDEK ⟨[("alice", ⟨[], []⟩)], ⟨none⟩⟩ ⟨5⟩ "alice"
        = .error .getDecryptedDEKFailed ∧
    Keyring.GetDecryptedDEK ⟨[("alice", ⟨[], [1, 2, 3]⟩)], ⟨none⟩⟩ ⟨5⟩ "alice"
        = .error .getDecryptedDEKFailed := ⟨rfl, rfl⟩

/-- C3 (amended): `GetDecryptedDEK` fails with the unknown-collaborator error
when no record exists for the login; otherwise it always attempts the
asymmetric unwrap with the given private key — a never-wrapped record (empty
`EncryptedDEK`) fails inside the unwrap with the same generic error as any
other unwrap failure, not with a distinct no-wrapped-key error. -/
theorem getDecryptedDEK_cases (k : Keyring) (priv : RSAPrivateKey) (login : String) :
    (lookupCollab k.collaborators login = none →
      k.GetDecryptedDEK priv login = .error (.unknownCollaborator login)) ∧
    (∀ c, lookupCollab k.collaborators login = some c →
      k.GetDecryptedDEK priv login =
        match DecryptDEK c.encryptedDEK priv with
        | .error _ => .error .getDecryptedDEKFailed
        | .ok dek => .ok dek) ∧
    (∀ c, lookupCollab k.collaborators login = some c → c.encryptedDEK = [] →
      k.GetDecryptedDEK priv login = .error .getDecryptedDEKFailed) := by
  refine ⟨?_, ?_, ?_⟩
  · intro h
    unfold Keyring.GetDecryptedDEK
    rw [h]
  · intro c h
    unfold Keyring.GetDecryptedDEK
    rw [h]
  · intro c h he
    have h2 : k.GetDecryptedDEK priv login =
        match DecryptDEK c.encryptedDEK priv with
        | .error _ => .error .getDecryptedDEKFailed
        | .ok dek => .ok dek := by
      unfold Keyring.GetDecryptedDEK
      rw [h]
    rw [h2, he]
    rfl

/-- Witness for the amended C3: an absent login and a never-wrapped record. -/
theorem getDecryptedDEK_cases_witness :
    Keyring.GetDecryptedDEK ⟨[("alice", ⟨[], []⟩)], ⟨none⟩⟩ ⟨5⟩ "bob"
        = .error (.unknownCollaborator "bob") ∧
    Keyring.GetDecryptedDEK ⟨[("alice", ⟨[], []⟩)], ⟨none⟩⟩ ⟨5⟩ "alice"
        = .error .getDecryptedDEKFailed :=
  ⟨(getDecryptedDEK_cases ⟨[("alice", ⟨[], []⟩)], ⟨none⟩⟩ ⟨5⟩ "bob").1 (by decide),
   (getDecryptedDEK_cases ⟨[("alice", ⟨[], []⟩)], ⟨none⟩⟩ ⟨5⟩ "alice").2.2
     ⟨[], []⟩ (by decide) rfl⟩

/-- C5 counterexample: "alice" holds a wrapped key `[9, 9]`; re-adding her
with a new key set yields a record whose `EncryptedDEK` is empty — the
existing `WrappedKey` is discarded, not preserved. -/
theorem addCollaborator_discards_wrappedKey :
    lookupCollab (Keyring.AddCollaborator ⟨[("alice", ⟨[], [9, 9]⟩)], ⟨none⟩⟩ "alice"
        [SSHKeyText.malformed "k2"]).collaborators "alice"
      = some ⟨[SSHKeyText.malformed "k2"], []⟩ ∧ ([9, 9] : List Nat) ≠ [] :=
  ⟨rfl, by decide⟩

/-- C5 (amended): upserting replaces the whole record.  `AddCollaborator`
stores a fresh record carrying the new key set and an empty `EncryptedDEK`
(any existing wrapped key is discarded); `UpdateCollaborators` stores exactly
the supplied record, whose `EncryptedDEK` overwrites the existing one. -/
theorem addCollaborator_replaces_record (k : Keyring) (login login2 : String)
    (keys : List SSHKeyText) (c : Collaborator) :
    lookupCollab (k.AddCollaborator login keys).collaborators login = some ⟨keys, []⟩ ∧
    lookupCollab (k.UpdateCollaborators [(login2, c)]).collaborators login2 = some c :=
  ⟨lookup_setCollab k.collaborators login ⟨keys, []⟩,
   lookup_setCollab k.collaborators login2 c⟩

/-- C6: the bytes `Save` writes to disk do not depend on the in-memory raw
DEK: two keyrings with the same collaborator table — however their
`DEKManager.rawKey` differ — marshal to identical file contents. -/
theorem save_independent_of_rawKey (k1 k2 : Keyring)
    (h : k1.collaborators = k2.collaborators) :
    marshalKeyring k1 = marshalKeyring k2 := by
  unfold marshalKeyring
  rw [h]

/-- Witness for C6: identical collaborator tables, different raw keys,
identical serialized bytes. -/
theorem save_independent_of_rawKey_witness :
    (Keyring.mk [("alice", ⟨[SSHKeyText.valid ⟨1, 190⟩], [4, 5]⟩)]
        ⟨some (List.replicate 32 0)⟩).dek
      ≠ (Keyring.mk [("alice", ⟨[SSHKeyText.valid ⟨1, 190⟩], [4, 5]⟩)]
        ⟨some (List.replicate 32 1)⟩).dek ∧
    marshalKeyring (Keyring.mk [("alice", ⟨[SSHKeyText.valid ⟨1, 190⟩], [4, 5]⟩)]
        ⟨some (List.replicate 32 0)⟩)
      = marshalKeyring (Keyring.mk [("alice", ⟨[SSHKeyText.valid ⟨1, 190⟩], [4, 5]⟩)]
        ⟨some (List.replicate 32 1)⟩) :=
  ⟨by decide, save_independent_of_rawKey _ _ rfl⟩

end EzEnv
